import Mathlib

/-!
Verification of the StreamCode ABR transcode and packaging engine
(`src/encode.py` and `src/utils/ffmpegtools.py`) against its
natural-language specification.

The Python code is shallowly embedded:

* Strings that have to be analysed character by character are embedded as
  `List Char`; decimal rendering of integers is `natChars` (the standard
  base-10 digit expansion, matching Python string formatting of a
  non-negative int).
* Real arithmetic done by Python in floating point (aspect-ratio widths,
  progress percentages) is modelled exactly over `ℚ`; Python `round`
  (round-half-to-even) is `rhe`.
* Effectful boundaries (subprocess output, JSON decoding, filesystem) are
  modelled as explicit inputs: `none`/`false` means the corresponding
  external action failed (raised), `some`/`true` carries its result.
-/

/- ===================== substring occurrence counting ===================== -/

/-- Number of (possibly overlapping) occurrences of `pat` in `s`: the number
of positions of `s` at which `pat` is a prefix of the remaining suffix. -/
def occ (pat : List Char) : List Char → Nat
  | [] => 0
  | c :: t => (if pat <+: (c :: t) then 1 else 0) + occ pat t

lemma occ_cons (pat : List Char) (c : Char) (t : List Char) :
    occ pat (c :: t) = (if pat <+: (c :: t) then 1 else 0) + occ pat t := rfl

/-- A pattern whose head is not a digit never matches at a position inside a
leading all-digit block. -/
lemma occ_digits_head (p0 : Char) (pr : List Char) (hp : p0.isDigit = false) :
    ∀ (d b : List Char), (∀ c ∈ d, c.isDigit = true) →
      occ (p0 :: pr) (d ++ b) = occ (p0 :: pr) b := by
  intro d
  induction d with
  | nil => intro b _; rfl
  | cons x xs ih =>
    intro b hd
    rw [List.cons_append, occ_cons]
    have hx : x.isDigit = true := hd x (by simp)
    have hnp : ¬ (p0 :: pr <+: x :: (xs ++ b)) := by
      intro hpre
      rw [List.cons_prefix_cons] at hpre
      rw [hpre.1, hx] at hp
      simp at hp
    rw [if_neg hnp, ih b (fun c hc => hd c (by simp [hc])), Nat.zero_add]

lemma prefix_of_append_of_le (pat u v : List Char) (h : pat <+: u ++ v)
    (hl : pat.length ≤ u.length) : pat <+: u := by
  rw [List.prefix_iff_eq_take] at h ⊢
  rw [h, List.take_append_eq_append_take]
  have h0 : pat.length - u.length = 0 := by omega
  rw [h0]
  simp

/-- A prefix match longer than `u` fixes `u` as the start of `pat` and makes
the next pattern character the head of `m`. -/
lemma straddle (pat u m : List Char) (h : pat <+: u ++ m) (hl : u.length < pat.length) :
    pat.take u.length = u ∧ (pat.drop u.length).head? = m.head? := by
  rw [List.prefix_iff_eq_take] at h
  rw [List.take_append_eq_append_take] at h
  have hu : u.take pat.length = u := List.take_of_length_le (by omega)
  rw [hu] at h
  constructor
  · rw [h]
    simp [List.take_left]
  · rw [h, List.drop_left]
    rcases m with _ | ⟨c, t⟩
    · simp
    · have hne : pat.length - u.length ≠ 0 := by omega
      rcases Nat.exists_eq_succ_of_ne_zero hne with ⟨k, hk⟩
      rw [hk]
      simp

/-- Straddle safety of a literal `a`: no nonempty proper prefix of `pat` that
is a suffix of `a` is followed in `pat` by a digit character. -/
def LOK (pat a : List Char) : Prop :=
  ∀ k, k < pat.length → 0 < k → pat.take k <:+ a →
    ∀ c, (pat.drop k).head? = some c → c.isDigit = false

instance (pat a : List Char) : Decidable (LOK pat a) := by
  unfold LOK
  infer_instance

/-- Occurrence counting splits around an all-digit block, provided the pattern
does not start with a digit and the literal before the block is straddle-safe. -/
lemma occ_append_digits (p0 : Char) (pr : List Char) (hp : p0.isDigit = false)
    (d : List Char) (hd : ∀ c ∈ d, c.isDigit = true) (hdne : d ≠ []) :
    ∀ (a b : List Char), LOK (p0 :: pr) a →
      occ (p0 :: pr) (a ++ (d ++ b)) = occ (p0 :: pr) a + occ (p0 :: pr) b := by
  intro a
  induction a with
  | nil =>
    intro b _
    rw [List.nil_append, occ_digits_head p0 pr hp d b hd]
    show occ (p0 :: pr) b = 0 + occ (p0 :: pr) b
    rw [Nat.zero_add]
  | cons x a' ih =>
    intro b hlok
    have hlok' : LOK (p0 :: pr) a' := by
      intro k hk hk0 hsuf c hc
      exact hlok k hk hk0 (hsuf.trans (List.suffix_cons x a')) c hc
    rw [List.cons_append, occ_cons, occ_cons, ih b hlok', ← Nat.add_assoc]
    congr 1
    congr 1
    by_cases hpre : (p0 :: pr) <+: (x :: a')
    · rw [if_pos hpre, if_pos ?_]
      calc (p0 :: pr) <+: (x :: a') := hpre
        _ <+: (x :: a') ++ (d ++ b) := List.prefix_append _ _
    · rw [if_neg hpre, if_neg ?_]
      intro hcon
      rcases Nat.lt_or_ge ((x :: a').length) ((p0 :: pr).length) with hlen | hlen
      · obtain ⟨htake, hhead⟩ := straddle (p0 :: pr) (x :: a') (d ++ b) hcon hlen
        rcases d with _ | ⟨c0, d'⟩
        · exact hdne rfl
        · have hc0 : ((p0 :: pr).drop (x :: a').length).head? = some c0 := by
            rw [hhead]; rfl
          have hdig := hlok ((x :: a').length) hlen (by simp) (by rw [htake]) c0 hc0
          rw [hd c0 (by simp)] at hdig
          simp at hdig
      · exact hpre (prefix_of_append_of_le _ _ _ hcon hlen)

/- ===================== decimal rendering of naturals ===================== -/

/-- Decimal digit character for a value below ten. -/
def digitChar (d : Nat) : Char :=
  match d with
  | 0 => '0' | 1 => '1' | 2 => '2' | 3 => '3' | 4 => '4'
  | 5 => '5' | 6 => '6' | 7 => '7' | 8 => '8' | _ => '9'

/-- Fueled base-10 expansion; the fuel is always sufficient at the call site
in `natChars`. -/
def natCharsAux : Nat → Nat → List Char
  | 0, _ => []
  | fuel+1, n => if n < 10 then [digitChar n] else natCharsAux fuel (n / 10) ++ [digitChar (n % 10)]

/-- Decimal rendering of a natural number, as produced by Python string
formatting of a non-negative int. -/
def natChars (n : Nat) : List Char := natCharsAux (n + 1) n

lemma digitChar_isDigit (d : Nat) : (digitChar d).isDigit = true := by
  unfold digitChar; split <;> rfl

lemma natCharsAux_digits : ∀ (fuel n : Nat), ∀ c ∈ natCharsAux fuel n, c.isDigit = true := by
  intro fuel
  induction fuel with
  | zero => intro n c hc; simp [natCharsAux] at hc
  | succ f ih =>
    intro n c hc
    unfold natCharsAux at hc
    split at hc
    · simp at hc; subst hc; exact digitChar_isDigit n
    · rw [List.mem_append] at hc
      rcases hc with h | h
      · exact ih _ c h
      · simp at h; subst h; exact digitChar_isDigit _

lemma natChars_digits (n : Nat) : ∀ c ∈ natChars n, c.isDigit = true :=
  natCharsAux_digits (n + 1) n

lemma natChars_ne_nil (n : Nat) : natChars n ≠ [] := by
  unfold natChars natCharsAux
  split <;> simp

lemma occ_dig (p0 : Char) (pr : List Char) (hp : p0.isDigit = false)
    (a : List Char) (hlok : LOK (p0 :: pr) a) (i : Nat) (b : List Char) :
    occ (p0 :: pr) (a ++ (natChars i ++ b)) = occ (p0 :: pr) a + occ (p0 :: pr) b :=
  occ_append_digits p0 pr hp (natChars i) (natChars_digits i) (natChars_ne_nil i) a b hlok

/- ===================== data model ===================== -/

/-- One rendition tuple as built by `build_targets` in `src/encode.py`:
Python `(w, h, br, name)` with `name` equal to the height followed by `p`. -/
structure Target where
  w : Nat
  h : Nat
  br : Nat
  name : String
  deriving DecidableEq, Repr

/-- The `RES_MAP` dictionary of `src/encode.py`: resolution key to
(width, height, bitrate). Only lookup is used, so it is embedded as a
partial map. -/
def RES_MAP (r : String) : Option (Nat × Nat × Nat) :=
  if r = "2160" then some (3840, 2160, 12000000)
  else if r = "1440" then some (2560, 1440, 8000000)
  else if r = "1080" then some (1920, 1080, 5000000)
  else if r = "720" then some (1280, 720, 2800000)
  else if r = "480" then some (854, 480, 1400000)
  else none

/-- Python `round` on a real value: round half to even. -/
def rhe (q : ℚ) : ℤ :=
  if q - (⌊q⌋ : ℚ) < 1/2 then ⌊q⌋
  else if 1/2 < q - (⌊q⌋ : ℚ) then ⌊q⌋ + 1
  else if ⌊q⌋ % 2 = 0 then ⌊q⌋ else ⌊q⌋ + 1

/-- The `even` helper of `src/encode.py`: `x if x % 2 == 0 else x - 1`
(Python `%` on a positive modulus agrees with `Int.emod`). -/
def evenInt (x : ℤ) : ℤ := if x % 2 = 0 then x else x - 1

/-- Stable descending insertion by height. -/
def insertDesc (x : Target) : List Target → List Target
  | [] => [x]
  | y :: ys => if y.h ≤ x.h then x :: y :: ys else y :: insertDesc x ys

/-- Stable sort, descending by height: the embedding of Python
`t.sort(key=lambda x: x[1], reverse=True)` (list.sort is stable, and a
stable descending sort is unique, so insertion sort is a faithful model). -/
def sortDesc : List Target → List Target
  | [] => []
  | x :: xs => insertDesc x (sortDesc xs)

/-- Rendition built in `source` aspect mode: canonical height and bitrate,
width recomputed as `even(int(round(H * ar)))`. -/
def targetOfKeySource (ar : ℚ) (q : Nat × Nat × Nat) : Target :=
  { w := (evenInt (rhe ((q.2.1 : ℚ) * ar))).toNat
    h := q.2.1
    br := q.2.2
    name := toString q.2.1 ++ "p" }

/-- Rendition built in `fixed` aspect mode: the raw `RES_MAP` triple. -/
def targetOfKeyFixed (q : Nat × Nat × Nat) : Target :=
  { w := q.1, h := q.2.1, br := q.2.2, name := toString q.2.1 ++ "p" }

/-- Embedding of `build_targets` from `src/encode.py`: filter the requested keys through
`RES_MAP`, compute widths according to the aspect mode (`src_h = 0` is the
Python falsy guard that replaces the source aspect ratio by 16/9), then sort
descending by height. -/
def build_targets (renditions : List String) (mode : String) (src_w src_h : Nat) : List Target :=
  sortDesc
    (if mode = "source" then
      renditions.filterMap (fun r => (RES_MAP r).map
        (targetOfKeySource (if src_h ≠ 0 then (src_w : ℚ) / (src_h : ℚ) else 16 / 9)))
    else
      renditions.filterMap (fun r => (RES_MAP r).map targetOfKeyFixed))

/- ===================== filter graph builder ===================== -/

/-- Python `enumerate` starting at `k`. -/
def enumFrom {α : Type} (k : Nat) : List α → List (Nat × α)
  | [] => []
  | x :: xs => (k, x) :: enumFrom (k + 1) xs

/-- The branch-label part of the split stage: one `[v<i>]` label per index. -/
def branchesStr : List Nat → List Char
  | [] => []
  | i :: is => "[v".data ++ natChars i ++ "]".data ++ branchesStr is

/-- The split stage of the filter graph: source input label `[0:v]`, the
branch count, and one output label per branch. -/
def splitPart (n : Nat) : List Char :=
  "[0:v]split=".data ++ natChars n ++ branchesStr (List.range n)

/-- One scaling chain of the filter graph, as formatted in
`build_filter_complex_for_targets`. -/
def chainBody (i w h : Nat) : List Char :=
  "[v".data ++ natChars i ++ "]scale=w=".data ++ natChars w ++ ":h=".data ++ natChars h ++
    ":flags=bicubic,format=yuv420p,setsar=1[v".data ++ natChars i ++ "o]".data

/-- The tail of a Python semicolon join: every further element is preceded
by one separator. -/
def joinSemiTail : List (List Char) → List Char
  | [] => []
  | c :: cs => ";".data ++ c ++ joinSemiTail cs

/-- Python semicolon join of a list of strings. -/
def joinSemi : List (List Char) → List Char
  | [] => []
  | c :: cs => c ++ joinSemiTail cs

/-- Embedding of `build_filter_complex_for_targets` from `src/encode.py`: returns the filter
graph description and the list of output labels. -/
def build_filter_complex_for_targets (targets : List Target) : List Char × List (List Char) :=
  let n := targets.length
  let split := splitPart n
  let chains := (enumFrom 0 targets).map (fun p => chainBody p.1 p.2.w p.2.h)
  let out_labels := (enumFrom 0 targets).map (fun p => "v".data ++ natChars p.1 ++ "o".data)
  (split ++ ";".data ++ joinSemi chains, out_labels)

/- ===================== HLS master playlist ===================== -/

/-- One variant-stream header line of the master playlist, with
`BANDWIDTH = bitrate + 128000` and `RESOLUTION = <w>x<h>`. -/
def hlsStreamInfLine (t : Target) : List Char :=
  "#EXT-X-STREAM-INF:BANDWIDTH=".data ++ natChars (t.br + 128000) ++
    ",RESOLUTION=".data ++ natChars t.w ++ "x".data ++ natChars t.h

/-- The playlist path line following a variant-stream header. -/
def hlsPathLine (t : Target) : List Char :=
  natChars t.h ++ "/index.m3u8".data

/-- The lines of the master playlist written by `write_hls_master` of
`src/encode.py` (the file itself is these lines joined by newlines). -/
def write_hls_master_lines (targets : List Target) : List (List Char) :=
  ["#EXTM3U".data, "#EXT-X-VERSION:3".data] ++
    targets.flatMap (fun t => [hlsStreamInfLine t, hlsPathLine t])

/- ===================== filter graph counting lemmas ===================== -/

lemma data_open_bracket_v : "[v".data = ['[', 'v'] := rfl

lemma data_close_bracket : "]".data = [']'] := rfl

lemma data_close_open_v : "][v".data = [']', '[', 'v'] := rfl

lemma data_close_semi_open_v : "];[v".data = [']', ';', '[', 'v'] := rfl

lemma data_scale : "]scale=w=".data = [']', 's', 'c', 'a', 'l', 'e', '=', 'w', '='] := rfl

lemma data_h : ":h=".data = [':', 'h', '='] := rfl

lemma data_o_close_semi : "o];[v".data = ['o', ']', ';', '[', 'v'] := rfl

lemma data_o_close : "o]".data = ['o', ']'] := rfl

lemma data_semi : ";".data = [';'] := rfl

lemma data_split_head : "[0:v]split=".data =
    ['[', '0', ':', 'v', ']', 's', 'p', 'l', 'i', 't', '='] := rfl

lemma data_flags : ":flags=bicubic,format=yuv420p,setsar=1[v".data =
    [':', 'f', 'l', 'a', 'g', 's', '=', 'b', 'i', 'c', 'u', 'b', 'i', 'c', ',',
     'f', 'o', 'r', 'm', 'a', 't', '=', 'y', 'u', 'v', '4', '2', '0', 'p', ',',
     's', 'e', 't', 's', 'a', 'r', '=', '1', '[', 'v'] := rfl

lemma occ_branches_aux (p0 : Char) (pr : List Char) (hp : p0.isDigit = false)
    (hl3 : LOK (p0 :: pr) "][v".data) :
    ∀ (is : List Nat) (tail : List Char),
      occ (p0 :: pr) ("]".data ++ (branchesStr is ++ tail)) =
        is.length * occ (p0 :: pr) "][v".data + occ (p0 :: pr) ("]".data ++ tail) := by
  intro is
  induction is with
  | nil => intro tail; simp [branchesStr]
  | cons i is ih =>
    intro tail
    have heq : "]".data ++ (branchesStr (i :: is) ++ tail) =
        "][v".data ++ (natChars i ++ ("]".data ++ (branchesStr is ++ tail))) := by
      simp [branchesStr, data_open_bracket_v, data_close_bracket, data_close_open_v,
        List.append_assoc]
    rw [heq, occ_dig p0 pr hp _ hl3 i _, ih tail, List.length_cons]
    ring

lemma occ_branches_first (p0 : Char) (pr : List Char) (hp : p0.isDigit = false)
    (hl2 : LOK (p0 :: pr) "[v".data) (hl3 : LOK (p0 :: pr) "][v".data) :
    ∀ (i : Nat) (is : List Nat) (tail : List Char),
      occ (p0 :: pr) (branchesStr (i :: is) ++ tail) =
        occ (p0 :: pr) "[v".data + is.length * occ (p0 :: pr) "][v".data +
          occ (p0 :: pr) ("]".data ++ tail) := by
  intro i is tail
  have heq : branchesStr (i :: is) ++ tail =
      "[v".data ++ (natChars i ++ ("]".data ++ (branchesStr is ++ tail))) := by
    simp [branchesStr, data_open_bracket_v, data_close_bracket, List.append_assoc]
  rw [heq, occ_dig p0 pr hp _ hl2 i _, occ_branches_aux p0 pr hp hl3 is tail]
  ring

lemma occ_chain_tail (p0 : Char) (pr : List Char) (hp : p0.isDigit = false)
    (hl8 : LOK (p0 :: pr) "o];[v".data) (hl5 : LOK (p0 :: pr) "]scale=w=".data)
    (hl6 : LOK (p0 :: pr) ":h=".data)
    (hl7 : LOK (p0 :: pr) ":flags=bicubic,format=yuv420p,setsar=1[v".data) :
    ∀ (ts : List Target) (k : Nat),
      occ (p0 :: pr) ("o]".data ++ joinSemiTail ((enumFrom k ts).map (fun p => chainBody p.1 p.2.w p.2.h))) =
        ts.length * (occ (p0 :: pr) "o];[v".data + occ (p0 :: pr) "]scale=w=".data +
          occ (p0 :: pr) ":h=".data + occ (p0 :: pr) ":flags=bicubic,format=yuv420p,setsar=1[v".data) +
        occ (p0 :: pr) "o]".data := by
  intro ts
  induction ts with
  | nil => intro k; simp [enumFrom, joinSemiTail]
  | cons t ts ih =>
    intro k
    have heq : "o]".data ++ joinSemiTail ((enumFrom k (t :: ts)).map (fun p => chainBody p.1 p.2.w p.2.h)) =
        "o];[v".data ++ (natChars k ++ ("]scale=w=".data ++ (natChars t.w ++ (":h=".data ++ (natChars t.h ++
          (":flags=bicubic,format=yuv420p,setsar=1[v".data ++ (natChars k ++
            ("o]".data ++ joinSemiTail ((enumFrom (k + 1) ts).map (fun p => chainBody p.1 p.2.w p.2.h)))))))))) := by
      simp [enumFrom, joinSemiTail, chainBody, data_open_bracket_v, data_o_close_semi,
        data_o_close, data_semi, data_scale, data_h, data_flags, List.append_assoc]
    rw [heq, occ_dig p0 pr hp _ hl8 k _, occ_dig p0 pr hp _ hl5 t.w _,
      occ_dig p0 pr hp _ hl6 t.h _, occ_dig p0 pr hp _ hl7 k _, ih (k + 1), List.length_cons]
    ring

lemma occ_chains_all (p0 : Char) (pr : List Char) (hp : p0.isDigit = false)
    (hl4 : LOK (p0 :: pr) "];[v".data) (hl5 : LOK (p0 :: pr) "]scale=w=".data)
    (hl6 : LOK (p0 :: pr) ":h=".data)
    (hl7 : LOK (p0 :: pr) ":flags=bicubic,format=yuv420p,setsar=1[v".data)
    (hl8 : LOK (p0 :: pr) "o];[v".data)
    (t : Target) (ts : List Target) (k : Nat) :
    occ (p0 :: pr) ("]".data ++ (";".data ++ joinSemi ((enumFrom k (t :: ts)).map (fun p => chainBody p.1 p.2.w p.2.h)))) =
      occ (p0 :: pr) "];[v".data + occ (p0 :: pr) "]scale=w=".data + occ (p0 :: pr) ":h=".data +
        occ (p0 :: pr) ":flags=bicubic,format=yuv420p,setsar=1[v".data +
      ts.length * (occ (p0 :: pr) "o];[v".data + occ (p0 :: pr) "]scale=w=".data +
        occ (p0 :: pr) ":h=".data + occ (p0 :: pr) ":flags=bicubic,format=yuv420p,setsar=1[v".data) +
      occ (p0 :: pr) "o]".data := by
  have heq : "]".data ++ (";".data ++ joinSemi ((enumFrom k (t :: ts)).map (fun p => chainBody p.1 p.2.w p.2.h))) =
      "];[v".data ++ (natChars k ++ ("]scale=w=".data ++ (natChars t.w ++ (":h=".data ++ (natChars t.h ++
        (":flags=bicubic,format=yuv420p,setsar=1[v".data ++ (natChars k ++
          ("o]".data ++ joinSemiTail ((enumFrom (k + 1) ts).map (fun p => chainBody p.1 p.2.w p.2.h)))))))))) := by
    simp [enumFrom, joinSemi, joinSemiTail, chainBody, data_open_bracket_v, data_close_bracket,
      data_close_semi_open_v, data_o_close, data_semi, data_scale, data_h, data_flags,
      List.append_assoc]
  rw [heq, occ_dig p0 pr hp _ hl4 k _, occ_dig p0 pr hp _ hl5 t.w _,
    occ_dig p0 pr hp _ hl6 t.h _, occ_dig p0 pr hp _ hl7 k _,
    occ_chain_tail p0 pr hp hl8 hl5 hl6 hl7 ts (k + 1)]
  ring

/-- Occurrence counting over the whole filter-graph string produced for a
non-empty target list, expressed through the occurrences in its eight
constituent literal fragments. -/
lemma occ_fc (p0 : Char) (pr : List Char) (hp : p0.isDigit = false)
    (hl1 : LOK (p0 :: pr) "[0:v]split=".data)
    (hl2 : LOK (p0 :: pr) "[v".data) (hl3 : LOK (p0 :: pr) "][v".data)
    (hl4 : LOK (p0 :: pr) "];[v".data) (hl5 : LOK (p0 :: pr) "]scale=w=".data)
    (hl6 : LOK (p0 :: pr) ":h=".data)
    (hl7 : LOK (p0 :: pr) ":flags=bicubic,format=yuv420p,setsar=1[v".data)
    (hl8 : LOK (p0 :: pr) "o];[v".data)
    (t : Target) (ts : List Target) :
    occ (p0 :: pr) ((build_filter_complex_for_targets (t :: ts)).1) =
      occ (p0 :: pr) "[0:v]split=".data +
      (occ (p0 :: pr) "[v".data + ts.length * occ (p0 :: pr) "][v".data) +
      (occ (p0 :: pr) "];[v".data + occ (p0 :: pr) "]scale=w=".data + occ (p0 :: pr) ":h=".data +
        occ (p0 :: pr) ":flags=bicubic,format=yuv420p,setsar=1[v".data) +
      ts.length * (occ (p0 :: pr) "o];[v".data + occ (p0 :: pr) "]scale=w=".data +
        occ (p0 :: pr) ":h=".data + occ (p0 :: pr) ":flags=bicubic,format=yuv420p,setsar=1[v".data) +
      occ (p0 :: pr) "o]".data := by
  have hrange : List.range (t :: ts).length = 0 :: (List.range ts.length).map Nat.succ := by
    rw [List.length_cons, List.range_succ_eq_map]
  have heq : (build_filter_complex_for_targets (t :: ts)).1 =
      "[0:v]split=".data ++ (natChars (t :: ts).length ++
        (branchesStr (0 :: (List.range ts.length).map Nat.succ) ++
          (";".data ++ joinSemi ((enumFrom 0 (t :: ts)).map (fun p => chainBody p.1 p.2.w p.2.h))))) := by
    rw [build_filter_complex_for_targets]
    simp only []
    rw [splitPart, hrange]
    simp [List.append_assoc]
  rw [heq, occ_dig p0 pr hp _ hl1 _ _,
    occ_branches_first p0 pr hp hl2 hl3 0 ((List.range ts.length).map Nat.succ) _,
    occ_chains_all p0 pr hp hl4 hl5 hl6 hl7 hl8 t ts 0]
  simp only [List.length_map, List.length_range]
  ring

/- ===================== infix decomposition helpers ===================== -/

lemma enumFrom_length {α : Type} : ∀ (ts : List α) (k : Nat), (enumFrom k ts).length = ts.length := by
  intro ts
  induction ts with
  | nil => intro k; rfl
  | cons x xs ih => intro k; simp [enumFrom, ih]

lemma enumFrom_get_mem {α : Type} :
    ∀ (ts : List α) (k i : Nat) (hi : i < ts.length), (k + i, ts.get ⟨i, hi⟩) ∈ enumFrom k ts := by
  intro ts
  induction ts with
  | nil => intro k i hi; simp at hi
  | cons x xs ih =>
    intro k i hi
    rcases i with _ | j
    · simp [enumFrom]
    · have hj : j < xs.length := by simpa using hi
      have := ih (k + 1) j hj
      have harith : k + (j + 1) = (k + 1) + j := by omega
      rw [enumFrom, List.mem_cons, harith]
      right
      exact this

lemma joinSemiTail_decomp {c : List Char} :
    ∀ {cs : List (List Char)}, c ∈ cs → ∃ x y, joinSemiTail cs = x ++ (c ++ y) := by
  intro cs
  induction cs with
  | nil => intro h; simp at h
  | cons d ds ih =>
    intro h
    rcases List.mem_cons.mp h with rfl | hmem
    · exact ⟨";".data, joinSemiTail ds, by simp [joinSemiTail]⟩
    · obtain ⟨x, y, hxy⟩ := ih hmem
      exact ⟨";".data ++ d ++ x, y, by simp [joinSemiTail, hxy]⟩

lemma joinSemi_decomp {c : List Char} {cs : List (List Char)} (h : c ∈ cs) :
    ∃ x y, joinSemi cs = x ++ (c ++ y) := by
  rcases cs with _ | ⟨d, ds⟩
  · simp at h
  · rcases List.mem_cons.mp h with rfl | hmem
    · exact ⟨[], joinSemiTail ds, by simp [joinSemi]⟩
    · obtain ⟨x, y, hxy⟩ := joinSemiTail_decomp hmem
      exact ⟨d ++ x, y, by simp [joinSemi, hxy]⟩

lemma data_scale_plain : "scale=w=".data =
    ['s', 'c', 'a', 'l', 'e', '=', 'w', '='] := rfl

lemma data_flags_plain : ":flags=bicubic,format=yuv420p,setsar=1".data =
    [':', 'f', 'l', 'a', 'g', 's', '=', 'b', 'i', 'c', 'u', 'b', 'i', 'c', ',',
     'f', 'o', 'r', 'm', 'a', 't', '=', 'y', 'u', 'v', '4', '2', '0', 'p', ',',
     's', 'e', 't', 's', 'a', 'r', '=', '1'] := rfl

lemma data_o_close_bracket : "o]".data = ['o', ']'] := rfl

/-- The scaling fragment of one chain, as named by the specification: scale
to the rendition geometry, normalize the pixel format, force square samples. -/
def scaleFragment (w h : Nat) : List Char :=
  "scale=w=".data ++ natChars w ++ ":h=".data ++ natChars h ++
    ":flags=bicubic,format=yuv420p,setsar=1".data

lemma chainBody_decomp (i w h : Nat) :
    chainBody i w h =
      ("[v".data ++ natChars i ++ "]".data) ++
        (scaleFragment w h ++ ("[v".data ++ natChars i ++ "o]".data)) := by
  simp [chainBody, scaleFragment, data_open_bracket_v, data_close_bracket, data_scale,
    data_scale_plain, data_h, data_flags, data_flags_plain, data_o_close_bracket,
    List.append_assoc]

set_option maxRecDepth 8000

/-- Claim C2: for every non-empty ladder of size N, the filter-graph string
built by `build_filter_complex_for_targets` has exactly one source decode
input `[0:v]`, exactly one `split=` stage, N output labels, three
occurrences of a branch label opener `[v` per rendition (one split output
plus the input and output labels of its chain), exactly N scaling chains
(`scale=` count), N pixel-format normalizations to `yuv420p`, N forced
square sample-aspect-ratio filters `setsar=1`, and for every index i the
chain fragment scaling to the i-th rendition geometry occurs inside the
string. -/
theorem C2_filter_graph (targets : List Target) (hne : targets ≠ []) :
    (build_filter_complex_for_targets targets).2.length = targets.length ∧
    occ "[0:v]".data (build_filter_complex_for_targets targets).1 = 1 ∧
    occ "split=".data (build_filter_complex_for_targets targets).1 = 1 ∧
    occ "[v".data (build_filter_complex_for_targets targets).1 = 3 * targets.length ∧
    occ "scale=".data (build_filter_complex_for_targets targets).1 = targets.length ∧
    occ "format=yuv420p".data (build_filter_complex_for_targets targets).1 = targets.length ∧
    occ "setsar=1".data (build_filter_complex_for_targets targets).1 = targets.length ∧
    ∀ i, (hi : i < targets.length) →
      ∃ x y, (build_filter_complex_for_targets targets).1 =
        x ++ (scaleFragment (targets.get ⟨i, hi⟩).w (targets.get ⟨i, hi⟩).h ++ y) := by
  rcases targets with _ | ⟨t, ts⟩
  · exact absurd rfl hne
  refine ⟨?_, ?_, ?_, ?_, ?_, ?_, ?_, ?_⟩
  · show ((enumFrom 0 (t :: ts)).map _).length = _
    rw [List.length_map, enumFrom_length]
  · have h := occ_fc '[' "0:v]".data (by decide) (by decide) (by decide) (by decide) (by decide)
      (by decide) (by decide) (by decide) (by decide) t ts
    show occ ('[' :: "0:v]".data) ((build_filter_complex_for_targets (t :: ts)).1) = 1
    rw [h]
    rw [show occ ('[' :: "0:v]".data) "[0:v]split=".data = 1 from by decide,
      show occ ('[' :: "0:v]".data) "[v".data = 0 from by decide,
      show occ ('[' :: "0:v]".data) "][v".data = 0 from by decide,
      show occ ('[' :: "0:v]".data) "];[v".data = 0 from by decide,
      show occ ('[' :: "0:v]".data) "]scale=w=".data = 0 from by decide,
      show occ ('[' :: "0:v]".data) ":h=".data = 0 from by decide,
      show occ ('[' :: "0:v]".data) ":flags=bicubic,format=yuv420p,setsar=1[v".data = 0 from by decide,
      show occ ('[' :: "0:v]".data) "o];[v".data = 0 from by decide,
      show occ ('[' :: "0:v]".data) "o]".data = 0 from by decide]
    omega
  · have h := occ_fc 's' "plit=".data (by decide) (by decide) (by decide) (by decide) (by decide)
      (by decide) (by decide) (by decide) (by decide) t ts
    show occ ('s' :: "plit=".data) ((build_filter_complex_for_targets (t :: ts)).1) = 1
    rw [h]
    rw [show occ ('s' :: "plit=".data) "[0:v]split=".data = 1 from by decide,
      show occ ('s' :: "plit=".data) "[v".data = 0 from by decide,
      show occ ('s' :: "plit=".data) "][v".data = 0 from by decide,
      show occ ('s' :: "plit=".data) "];[v".data = 0 from by decide,
      show occ ('s' :: "plit=".data) "]scale=w=".data = 0 from by decide,
      show occ ('s' :: "plit=".data) ":h=".data = 0 from by decide,
      show occ ('s' :: "plit=".data) ":flags=bicubic,format=yuv420p,setsar=1[v".data = 0 from by decide,
      show occ ('s' :: "plit=".data) "o];[v".data = 0 from by decide,
      show occ ('s' :: "plit=".data) "o]".data = 0 from by decide]
    omega
  · have h := occ_fc '[' "v".data (by decide) (by decide) (by decide) (by decide) (by decide)
      (by decide) (by decide) (by decide) (by decide) t ts
    show occ ('[' :: "v".data) ((build_filter_complex_for_targets (t :: ts)).1) = 3 * (t :: ts).length
    rw [h]
    rw [show occ ('[' :: "v".data) "[0:v]split=".data = 0 from by decide,
      show occ ('[' :: "v".data) "[v".data = 1 from by decide,
      show occ ('[' :: "v".data) "][v".data = 1 from by decide,
      show occ ('[' :: "v".data) "];[v".data = 1 from by decide,
      show occ ('[' :: "v".data) "]scale=w=".data = 0 from by decide,
      show occ ('[' :: "v".data) ":h=".data = 0 from by decide,
      show occ ('[' :: "v".data) ":flags=bicubic,format=yuv420p,setsar=1[v".data = 1 from by decide,
      show occ ('[' :: "v".data) "o];[v".data = 1 from by decide,
      show occ ('[' :: "v".data) "o]".data = 0 from by decide,
      List.length_cons]
    omega
  · have h := occ_fc 's' "cale=".data (by decide) (by decide) (by decide) (by decide) (by decide)
      (by decide) (by decide) (by decide) (by decide) t ts
    show occ ('s' :: "cale=".data) ((build_filter_complex_for_targets (t :: ts)).1) = (t :: ts).length
    rw [h]
    rw [show occ ('s' :: "cale=".data) "[0:v]split=".data = 0 from by decide,
      show occ ('s' :: "cale=".data) "[v".data = 0 from by decide,
      show occ ('s' :: "cale=".data) "][v".data = 0 from by decide,
      show occ ('s' :: "cale=".data) "];[v".data = 0 from by decide,
      show occ ('s' :: "cale=".data) "]scale=w=".data = 1 from by decide,
      show occ ('s' :: "cale=".data) ":h=".data = 0 from by decide,
      show occ ('s' :: "cale=".data) ":flags=bicubic,format=yuv420p,setsar=1[v".data = 0 from by decide,
      show occ ('s' :: "cale=".data) "o];[v".data = 0 from by decide,
      show occ ('s' :: "cale=".data) "o]".data = 0 from by decide,
      List.length_cons]
    omega
  · have h := occ_fc 'f' "ormat=yuv420p".data (by decide) (by decide) (by decide) (by decide)
      (by decide) (by decide) (by decide) (by decide) (by decide) t ts
    show occ ('f' :: "ormat=yuv420p".data) ((build_filter_complex_for_targets (t :: ts)).1) = (t :: ts).length
    rw [h]
    rw [show occ ('f' :: "ormat=yuv420p".data) "[0:v]split=".data = 0 from by decide,
      show occ ('f' :: "ormat=yuv420p".data) "[v".data = 0 from by decide,
      show occ ('f' :: "ormat=yuv420p".data) "][v".data = 0 from by decide,
      show occ ('f' :: "ormat=yuv420p".data) "];[v".data = 0 from by decide,
      show occ ('f' :: "ormat=yuv420p".data) "]scale=w=".data = 0 from by decide,
      show occ ('f' :: "ormat=yuv420p".data) ":h=".data = 0 from by decide,
      show occ ('f' :: "ormat=yuv420p".data) ":flags=bicubic,format=yuv420p,setsar=1[v".data = 1 from by decide,
      show occ ('f' :: "ormat=yuv420p".data) "o];[v".data = 0 from by decide,
      show occ ('f' :: "ormat=yuv420p".data) "o]".data = 0 from by decide,
      List.length_cons]
    omega
  · have h := occ_fc 's' "etsar=1".data (by decide) (by decide) (by decide) (by decide) (by decide)
      (by decide) (by decide) (by decide) (by decide) t ts
    show occ ('s' :: "etsar=1".data) ((build_filter_complex_for_targets (t :: ts)).1) = (t :: ts).length
    rw [h]
    rw [show occ ('s' :: "etsar=1".data) "[0:v]split=".data = 0 from by decide,
      show occ ('s' :: "etsar=1".data) "[v".data = 0 from by decide,
      show occ ('s' :: "etsar=1".data) "][v".data = 0 from by decide,
      show occ ('s' :: "etsar=1".data) "];[v".data = 0 from by decide,
      show occ ('s' :: "etsar=1".data) "]scale=w=".data = 0 from by decide,
      show occ ('s' :: "etsar=1".data) ":h=".data = 0 from by decide,
      show occ ('s' :: "etsar=1".data) ":flags=bicubic,format=yuv420p,setsar=1[v".data = 1 from by decide,
      show occ ('s' :: "etsar=1".data) "o];[v".data = 0 from by decide,
      show occ ('s' :: "etsar=1".data) "o]".data = 0 from by decide,
      List.length_cons]
    omega
  · intro i hi
    have hmem := enumFrom_get_mem (t :: ts) 0 i hi
    have hmem2 : chainBody (0 + i) ((t :: ts).get ⟨i, hi⟩).w ((t :: ts).get ⟨i, hi⟩).h ∈
        (enumFrom 0 (t :: ts)).map (fun p => chainBody p.1 p.2.w p.2.h) :=
      List.mem_map.mpr ⟨(0 + i, (t :: ts).get ⟨i, hi⟩), hmem, rfl⟩
    obtain ⟨x, y, hxy⟩ := joinSemi_decomp hmem2
    refine ⟨splitPart (t :: ts).length ++ ";".data ++
      (x ++ ("[v".data ++ natChars (0 + i) ++ "]".data)),
      ("[v".data ++ natChars (0 + i) ++ "o]".data) ++ y, ?_⟩
    show (build_filter_complex_for_targets (t :: ts)).1 = _
    rw [build_filter_complex_for_targets]
    simp only []
    rw [hxy, chainBody_decomp]
    simp [List.append_assoc]

/- ===================== rounding lemmas ===================== -/

lemma rhe_cases (q : ℚ) : rhe q = ⌊q⌋ ∨ rhe q = ⌊q⌋ + 1 := by
  unfold rhe
  split_ifs <;> simp

lemma rhe_nonneg (q : ℚ) (hq : 0 ≤ q) : 0 ≤ rhe q := by
  have hf : (0 : ℤ) ≤ ⌊q⌋ := Int.floor_nonneg.mpr hq
  rcases rhe_cases q with h | h <;> omega

lemma abs_rhe_sub_le (q : ℚ) : |((rhe q : ℤ) : ℚ) - q| ≤ 1 / 2 := by
  have hfl : ((⌊q⌋ : ℤ) : ℚ) ≤ q := Int.floor_le q
  have hfu : q < ((⌊q⌋ : ℤ) : ℚ) + 1 := Int.lt_floor_add_one q
  unfold rhe
  split_ifs with h1 h2 h3 <;> rw [abs_le] <;> constructor <;> push_cast <;> linarith

lemma evenInt_mod (x : ℤ) : evenInt x % 2 = 0 := by
  unfold evenInt
  split_ifs with h
  · exact h
  · omega

lemma evenInt_le (x : ℤ) : x - 1 ≤ evenInt x ∧ evenInt x ≤ x := by
  unfold evenInt
  split_ifs <;> omega

lemma evenInt_nonneg (x : ℤ) (hx : 0 ≤ x) : 0 ≤ evenInt x := by
  unfold evenInt
  split_ifs with h
  · exact hx
  · omega

lemma abs_evenInt_rhe_sub_le (q : ℚ) : |((evenInt (rhe q) : ℤ) : ℚ) - q| ≤ 3 / 2 := by
  have h1 := abs_rhe_sub_le q
  have h2 := evenInt_le (rhe q)
  rw [abs_le] at h1 ⊢
  have h2a : ((evenInt (rhe q) : ℤ) : ℚ) ≤ ((rhe q : ℤ) : ℚ) := by exact_mod_cast h2.2
  have h2b : ((rhe q : ℤ) : ℚ) - 1 ≤ ((evenInt (rhe q) : ℤ) : ℚ) := by
    exact_mod_cast h2.1
  constructor <;> linarith [h1.1, h1.2]

/- ===================== ladder builder lemmas ===================== -/

lemma insertDesc_perm (x : Target) : ∀ (l : List Target), (insertDesc x l).Perm (x :: l) := by
  intro l
  induction l with
  | nil => rfl
  | cons y ys ih =>
    rw [insertDesc]
    split_ifs
    · rfl
    · exact (ih.cons y).trans (List.Perm.swap x y ys)

lemma sortDesc_perm : ∀ (l : List Target), (sortDesc l).Perm l := by
  intro l
  induction l with
  | nil => rfl
  | cons x xs ih =>
    rw [sortDesc]
    exact (insertDesc_perm x _).trans (ih.cons x)

lemma insertDesc_pairwise (x : Target) :
    ∀ (l : List Target), l.Pairwise (fun a b => b.h ≤ a.h) →
      (insertDesc x l).Pairwise (fun a b => b.h ≤ a.h) := by
  intro l
  induction l with
  | nil => intro _; simp [insertDesc]
  | cons y ys ih =>
    intro h
    rw [List.pairwise_cons] at h
    rw [insertDesc]
    split_ifs with hyx
    · rw [List.pairwise_cons]
      refine ⟨?_, List.pairwise_cons.mpr h⟩
      intro b hb
      rcases List.mem_cons.mp hb with rfl | hb'
      · exact hyx
      · exact le_trans (h.1 b hb') hyx
    · rw [List.pairwise_cons]
      refine ⟨?_, ih h.2⟩
      intro b hb
      rcases List.mem_cons.mp ((insertDesc_perm x ys).mem_iff.mp hb) with rfl | hb'
      · omega
      · exact h.1 b hb'

lemma sortDesc_pairwise : ∀ (l : List Target), (sortDesc l).Pairwise (fun a b => b.h ≤ a.h) := by
  intro l
  induction l with
  | nil => simp [sortDesc]
  | cons x xs ih => exact insertDesc_pairwise x _ ih

lemma RES_MAP_cases (r : String) (q : Nat × Nat × Nat) (h : RES_MAP r = some q) :
    (r = "2160" ∧ q = (3840, 2160, 12000000)) ∨ (r = "1440" ∧ q = (2560, 1440, 8000000)) ∨
    (r = "1080" ∧ q = (1920, 1080, 5000000)) ∨ (r = "720" ∧ q = (1280, 720, 2800000)) ∨
    (r = "480" ∧ q = (854, 480, 1400000)) := by
  unfold RES_MAP at h
  split_ifs at h with h1 h2 h3 h4 h5 <;> simp_all

lemma RES_MAP_height_inj (r s : String) (q p : Nat × Nat × Nat)
    (hq : RES_MAP r = some q) (hp : RES_MAP s = some p) (hh : q.2.1 = p.2.1) : r = s := by
  rcases RES_MAP_cases r q hq with ⟨rfl, rfl⟩ | ⟨rfl, rfl⟩ | ⟨rfl, rfl⟩ | ⟨rfl, rfl⟩ | ⟨rfl, rfl⟩ <;>
    rcases RES_MAP_cases s p hp with ⟨rfl, rfl⟩ | ⟨rfl, rfl⟩ | ⟨rfl, rfl⟩ | ⟨rfl, rfl⟩ | ⟨rfl, rfl⟩ <;>
    simp_all

lemma targetOfKeySource_w_int (ar : ℚ) (har : 0 ≤ ar) (q : Nat × Nat × Nat) :
    ((targetOfKeySource ar q).w : ℤ) = evenInt (rhe ((q.2.1 : ℚ) * ar)) := by
  unfold targetOfKeySource
  exact Int.toNat_of_nonneg (evenInt_nonneg _ (rhe_nonneg _ (by positivity)))

/-- Membership description of `build_targets`: every produced rendition comes
from a requested key found in `RES_MAP`, keeps that height and bitrate, and
has the aspect-mode-dependent width. -/
lemma build_targets_mem_src (rs : List String) (mode : String) (sW sH : Nat) (t : Target)
    (ht : t ∈ build_targets rs mode sW sH) :
    ∃ r ∈ rs, ∃ q, RES_MAP r = some q ∧ t.h = q.2.1 ∧ t.br = q.2.2 ∧
      t.name = toString q.2.1 ++ "p" ∧
      (mode = "source" →
        (t.w : ℤ) = evenInt (rhe ((q.2.1 : ℚ) *
          (if sH ≠ 0 then (sW : ℚ) / (sH : ℚ) else 16 / 9)))) ∧
      (mode ≠ "source" → t.w = q.1) := by
  unfold build_targets at ht
  rw [(sortDesc_perm _).mem_iff] at ht
  have har : (0 : ℚ) ≤ if sH ≠ 0 then (sW : ℚ) / (sH : ℚ) else 16 / 9 := by
    split_ifs <;> positivity
  by_cases hmode : mode = "source"
  · rw [if_pos hmode] at ht
    obtain ⟨r, hr, heq⟩ := List.mem_filterMap.mp ht
    obtain ⟨q, hq, hgq⟩ := Option.map_eq_some'.mp heq
    refine ⟨r, hr, q, hq, ?_, ?_, ?_, ?_, ?_⟩
    · rw [← hgq]; rfl
    · rw [← hgq]; rfl
    · rw [← hgq]; rfl
    · intro _
      rw [← hgq]
      exact targetOfKeySource_w_int _ har q
    · intro hm; exact absurd hmode hm
  · rw [if_neg hmode] at ht
    obtain ⟨r, hr, heq⟩ := List.mem_filterMap.mp ht
    obtain ⟨q, hq, hgq⟩ := Option.map_eq_some'.mp heq
    refine ⟨r, hr, q, hq, ?_, ?_, ?_, ?_, ?_⟩
    · rw [← hgq]; rfl
    · rw [← hgq]; rfl
    · rw [← hgq]; rfl
    · intro hm; exact absurd hm hmode
    · intro _; rw [← hgq]; rfl

lemma pairwise_ne_height_filterMap (rs : List String) (g : Nat × Nat × Nat → Target)
    (hg : ∀ q, (g q).h = q.2.1) (hnd : rs.Nodup) :
    (rs.filterMap (fun r => (RES_MAP r).map g)).Pairwise (fun a b => a.h ≠ b.h) := by
  refine List.Pairwise.filterMap _ ?_ hnd
  intro r s hrs t htm t' htm'
  obtain ⟨q, hq, hgq⟩ := Option.map_eq_some'.mp htm
  obtain ⟨p, hp, hgp⟩ := Option.map_eq_some'.mp htm'
  intro hcon
  apply hrs
  apply RES_MAP_height_inj r s q p hq hp
  rw [← hg q, ← hg p, hgq, hgp, hcon]

lemma build_targets_pairwise_ne (rs : List String) (mode : String) (sW sH : Nat)
    (hnd : rs.Nodup) :
    (build_targets rs mode sW sH).Pairwise (fun a b => a.h ≠ b.h) := by
  unfold build_targets
  refine (List.Perm.pairwise_iff (fun hab => hab.symm) (sortDesc_perm _)).mpr ?_
  by_cases hm : mode = "source"
  · rw [if_pos hm]
    exact pairwise_ne_height_filterMap rs _ (fun q => rfl) hnd
  · rw [if_neg hm]
    exact pairwise_ne_height_filterMap rs targetOfKeyFixed (fun q => rfl) hnd

lemma count_filterMap_height (g : Nat × Nat × Nat → Target) (hg : ∀ p, (g p).h = p.2.1) :
    ∀ (rs : List String) (r : String) (q : Nat × Nat × Nat), RES_MAP r = some q →
      (rs.filterMap (fun s => (RES_MAP s).map g)).countP (fun t => t.h == q.2.1) =
        rs.count r := by
  intro rs
  induction rs with
  | nil => intro r q _; rfl
  | cons s rs ih =>
    intro r q hq
    rw [List.count_cons]
    rcases hres : RES_MAP s with _ | p
    · have hsr : s ≠ r := by
        intro h
        rw [h, hq] at hres
        exact Option.noConfusion hres
      simp only [List.filterMap_cons, hres, Option.map_none']
      rw [ih r q hq]
      simp [hsr]
    · simp only [List.filterMap_cons, hres, Option.map_some']
      rw [List.countP_cons, ih r q hq, hg p]
      by_cases hpq : p.2.1 = q.2.1
      · have hsr : s = r := RES_MAP_height_inj s r p q hres hq hpq
        simp [hpq, hsr]
      · have hsr : s ≠ r := by
          intro h
          rw [h, hq] at hres
          exact hpq (congrArg (fun o => o.2.1) (Option.some.inj hres).symm)
        simp [hpq, hsr]

lemma length_filterMap_known (g : Nat × Nat × Nat → Target) :
    ∀ (rs : List String),
      (rs.filterMap (fun s => (RES_MAP s).map g)).length =
        rs.countP (fun r => (RES_MAP r).isSome) := by
  intro rs
  induction rs with
  | nil => rfl
  | cons s rs ih =>
    rw [List.countP_cons]
    rcases hres : RES_MAP s with _ | p
    · simp only [List.filterMap_cons, hres, Option.map_none']
      rw [ih]
      simp [hres]
    · simp only [List.filterMap_cons, hres, Option.map_some']
      rw [List.length_cons, ih]
      simp [hres]

lemma target_eq_of_fields (a b : Target) (hw : a.w = b.w) (hh : a.h = b.h)
    (hbr : a.br = b.br) (hn : a.name = b.name) : a = b := by
  cases a; cases b; simp_all

/-- Two ladder entries with the same height are the same tuple: the height
determines the key (heights in `RES_MAP` are distinct), and the key together
with the aspect mode determines every field. -/
lemma build_targets_height_det (rs : List String) (mode : String) (sW sH : Nat)
    (t1 t2 : Target) (h1 : t1 ∈ build_targets rs mode sW sH)
    (h2 : t2 ∈ build_targets rs mode sW sH) (hh : t1.h = t2.h) : t1 = t2 := by
  obtain ⟨r1, _, q1, hq1, hh1, hbr1, hn1, hsrc1, hfix1⟩ :=
    build_targets_mem_src rs mode sW sH t1 h1
  obtain ⟨r2, _, q2, hq2, hh2, hbr2, hn2, hsrc2, hfix2⟩ :=
    build_targets_mem_src rs mode sW sH t2 h2
  have hq12 : q1.2.1 = q2.2.1 := by rw [← hh1, ← hh2, hh]
  have hr12 : r1 = r2 := RES_MAP_height_inj r1 r2 q1 q2 hq1 hq2 hq12
  rw [hr12] at hq1
  have hqq : q1 = q2 := Option.some.inj (hq1.symm.trans hq2)
  apply target_eq_of_fields
  · by_cases hm : mode = "source"
    · have e1 := hsrc1 hm
      have e2 := hsrc2 hm
      rw [hqq] at e1
      have hz : (t1.w : ℤ) = (t2.w : ℤ) := by rw [e1, e2]
      exact_mod_cast hz
    · rw [hfix1 hm, hfix2 hm, hqq]
  · exact hh
  · rw [hbr1, hbr2, hqq]
  · rw [hn1, hn2, hqq]

lemma countP_le_count_of_eq (a : Target) (p : Target → Bool) :
    ∀ l : List Target, (∀ x ∈ l, p x = true → x = a) → l.countP p ≤ l.count a := by
  intro l
  induction l with
  | nil => intro _; simp
  | cons x xs ih =>
    intro hall
    rw [List.countP_cons, List.count_cons]
    have hih := ih (fun y hy hp => hall y (by simp [hy]) hp)
    by_cases hp : p x = true
    · have hxa : x = a := hall x (by simp) hp
      rw [hp, hxa]
      simp
      omega
    · rw [Bool.not_eq_true] at hp
      rw [hp]
      simp only [Bool.false_eq_true, if_false, Nat.add_zero]
      by_cases hxa : (x == a) = true
      · rw [if_pos hxa]
        omega
      · rw [if_neg hxa]
        omega

/-- Claim C1 is false as stated: when the same key is requested twice the
ladder keeps both copies, so it is neither strictly descending nor free of
duplicates. -/
theorem C1_counterexample :
    ¬ ((build_targets ["720", "720"] "fixed" 1920 1080).Pairwise (fun a b => b.h < a.h) ∧
      (build_targets ["720", "720"] "fixed" 1920 1080).Nodup) := by
  decide

/-- Claim C1 (amended): the ladder built by `build_targets` is sorted
descending by height (weakly in general); every entry comes from a requested
key found in the resolution map, and the ladder contains exactly one entry
per occurrence of a known requested key: its length is the number of
known-key occurrences in the request, and for each known key the number of
entries at that key's height equals the key's multiplicity in the request.
Hence a known key requested at least twice makes the ladder duplicate-laden
(not Nodup), while pairwise-distinct requested keys give a strictly
descending, duplicate-free ladder. -/
theorem C1_ladder (rs : List String) (mode : String) (sW sH : Nat) :
    (build_targets rs mode sW sH).Pairwise (fun a b => b.h ≤ a.h) ∧
    (∀ t ∈ build_targets rs mode sW sH,
      ∃ r ∈ rs, ∃ q, RES_MAP r = some q ∧ t.h = q.2.1 ∧ t.br = q.2.2) ∧
    (build_targets rs mode sW sH).length = rs.countP (fun r => (RES_MAP r).isSome) ∧
    (∀ r q, RES_MAP r = some q →
      (build_targets rs mode sW sH).countP (fun t => t.h == q.2.1) = rs.count r) ∧
    (∀ r q, RES_MAP r = some q → 2 ≤ rs.count r →
      ¬ (build_targets rs mode sW sH).Nodup) ∧
    (rs.Nodup →
      (build_targets rs mode sW sH).Pairwise (fun a b => b.h < a.h) ∧
      (build_targets rs mode sW sH).Nodup) := by
  have hlen : (build_targets rs mode sW sH).length =
      rs.countP (fun r => (RES_MAP r).isSome) := by
    unfold build_targets
    rw [(sortDesc_perm _).length_eq]
    by_cases hm : mode = "source"
    · rw [if_pos hm]
      exact length_filterMap_known _ rs
    · rw [if_neg hm]
      exact length_filterMap_known _ rs
  have hcount : ∀ r q, RES_MAP r = some q →
      (build_targets rs mode sW sH).countP (fun t => t.h == q.2.1) = rs.count r := by
    intro r q hq
    unfold build_targets
    rw [(sortDesc_perm _).countP_eq]
    by_cases hm : mode = "source"
    · rw [if_pos hm]
      exact count_filterMap_height _ (fun p => rfl) rs r q hq
    · rw [if_neg hm]
      exact count_filterMap_height _ (fun p => rfl) rs r q hq
  refine ⟨?_, ?_, hlen, hcount, ?_, ?_⟩
  · unfold build_targets
    exact sortDesc_pairwise _
  · intro t ht
    obtain ⟨r, hr, q, hq, hh, hbr, _, _, _⟩ := build_targets_mem_src rs mode sW sH t ht
    exact ⟨r, hr, q, hq, hh, hbr⟩
  · intro r q hq hcnt hnodup
    have hpos : 0 < (build_targets rs mode sW sH).countP (fun t => t.h == q.2.1) := by
      rw [hcount r q hq]
      omega
    obtain ⟨t0, ht0, hpt0⟩ := List.countP_pos_iff.mp hpos
    have ht0h : t0.h = q.2.1 := by
      have := hpt0
      simp only [beq_iff_eq] at this
      exact this
    have hall : ∀ x ∈ build_targets rs mode sW sH,
        (fun t => t.h == q.2.1) x = true → x = t0 := by
      intro x hx hpx
      simp only [beq_iff_eq] at hpx
      exact build_targets_height_det rs mode sW sH x t0 hx ht0 (by rw [hpx, ht0h])
    have hle := countP_le_count_of_eq t0 (fun t => t.h == q.2.1)
      (build_targets rs mode sW sH) hall
    have hone := List.nodup_iff_count_le_one.mp hnodup t0
    rw [hcount r q hq] at hle
    omega
  · intro hnd
    have hne := build_targets_pairwise_ne rs mode sW sH hnd
    have hle : (build_targets rs mode sW sH).Pairwise (fun a b => b.h ≤ a.h) := by
      unfold build_targets
      exact sortDesc_pairwise _
    constructor
    · exact (hle.and hne).imp (fun hab => by omega)
    · exact hne.imp (fun hab heq => hab (congrArg Target.h heq))

/-- Witness for the amended claim C1: distinct keys give a duplicate-free
ladder; the repeated key 720 yields two entries at height 720 and a ladder
that is not duplicate-free. -/
theorem C1_ladder_witness :
    (["1080", "720"] : List String).Nodup ∧
    (build_targets ["1080", "720"] "fixed" 1920 1080).Nodup ∧
    (build_targets ["720", "720"] "fixed" 1920 1080).countP (fun t => t.h == 720) = 2 ∧
    ¬ (build_targets ["720", "720"] "fixed" 1920 1080).Nodup := by
  refine ⟨by decide, ?_, ?_, ?_⟩
  · exact ((C1_ladder ["1080", "720"] "fixed" 1920 1080).2.2.2.2.2 (by decide)).2
  · have h := (C1_ladder ["720", "720"] "fixed" 1920 1080).2.2.2.1 "720"
      (1280, 720, 2800000) (by decide)
    exact h.trans (by decide)
  · exact (C1_ladder ["720", "720"] "fixed" 1920 1080).2.2.2.2.1 "720"
      (1280, 720, 2800000) (by decide) (by decide)


/-- Claim C3: in `source` aspect mode with positive probed height, every
rendition width is even, equals the even-rounded product of the canonical
height with the source aspect ratio, and deviates from the exact
aspect-preserving width by at most 3/2 of a pixel (round-half-to-even
contributes at most 1/2, forcing evenness at most another 1). -/
theorem C3_source_width (rs : List String) (sW sH : Nat) (hH : 0 < sH) (t : Target)
    (ht : t ∈ build_targets rs "source" sW sH) :
    t.w % 2 = 0 ∧
    (t.w : ℤ) = evenInt (rhe ((t.h : ℚ) * ((sW : ℚ) / (sH : ℚ)))) ∧
    |(t.w : ℚ) - (t.h : ℚ) * ((sW : ℚ) / (sH : ℚ))| ≤ 3 / 2 := by
  obtain ⟨r, hr, q, hq, hh, hbr, _, hsrc, _⟩ := build_targets_mem_src rs "source" sW sH t ht
  have hw := hsrc rfl
  rw [if_pos (by omega : sH ≠ 0)] at hw
  refine ⟨?_, ?_, ?_⟩
  · have hmod := evenInt_mod (rhe ((q.2.1 : ℚ) * ((sW : ℚ) / (sH : ℚ))))
    omega
  · rw [hh]
    exact hw
  · have hcast : (t.w : ℚ) = ((evenInt (rhe ((q.2.1 : ℚ) * ((sW : ℚ) / (sH : ℚ)))) : ℤ) : ℚ) := by
      exact_mod_cast congrArg (fun z : ℤ => (z : ℚ)) hw
    rw [hh, hcast]
    exact abs_evenInt_rhe_sub_le _

lemma build_targets_720_eval :
    build_targets ["720"] "source" 1920 1080 = [⟨1280, 720, 2800000, "720p"⟩] := by
  have har : (if (1080 : Nat) ≠ 0 then ((1920 : Nat) : ℚ) / ((1080 : Nat) : ℚ) else 16 / 9) =
      ((1920 : Nat) : ℚ) / ((1080 : Nat) : ℚ) := by norm_num
  have hw : (evenInt (rhe (1280 : ℚ))).toNat = 1280 := by
    unfold rhe evenInt
    norm_num
    decide
  unfold build_targets
  rw [if_pos rfl, har]
  simp only [List.filterMap, RES_MAP]
  norm_num [targetOfKeySource, sortDesc, insertDesc]
  exact ⟨hw, by decide⟩

/-- Witness for claim C3 on a 1920x1080 source and the 720 key. -/
theorem C3_source_width_witness :
    0 < 1080 ∧ (⟨1280, 720, 2800000, "720p"⟩ : Target) ∈ build_targets ["720"] "source" 1920 1080 ∧
    ((⟨1280, 720, 2800000, "720p"⟩ : Target).w : ℤ) =
      evenInt (rhe (((720 : Nat) : ℚ) * (((1920 : Nat) : ℚ) / ((1080 : Nat) : ℚ)))) :=
  ⟨by decide, by rw [build_targets_720_eval]; exact List.mem_singleton.mpr rfl,
    (C3_source_width ["720"] 1920 1080 (by decide) ⟨1280, 720, 2800000, "720p"⟩
      (by rw [build_targets_720_eval]; exact List.mem_singleton.mpr rfl)).2.1⟩

/-- Claim C9: `build_targets` is total in `source` mode even for a zero
probed height: the falsy guard replaces the source aspect ratio by 16/9, so
the result coincides with the ladder computed for an exact 16:9 source. -/
theorem C9_zero_height_guard (rs : List String) (sW : Nat) :
    build_targets rs "source" sW 0 = build_targets rs "source" 16 9 := by
  unfold build_targets
  have h1 : (if (0 : Nat) ≠ 0 then (sW : ℚ) / ((0 : Nat) : ℚ) else 16 / 9) = 16 / 9 := by
    norm_num
  have h2 : (if (9 : Nat) ≠ 0 then ((16 : Nat) : ℚ) / ((9 : Nat) : ℚ) else 16 / 9) = 16 / 9 := by
    norm_num
  rw [if_pos rfl, if_pos rfl, h1, h2]

/-- Witness for claim C2 at a concrete two-rendition ladder. -/
theorem C2_filter_graph_witness :
    occ "split=".data (build_filter_complex_for_targets
      [⟨1920, 1080, 5000000, "1080p"⟩, ⟨1280, 720, 2800000, "720p"⟩]).1 = 1 ∧
    occ "setsar=1".data (build_filter_complex_for_targets
      [⟨1920, 1080, 5000000, "1080p"⟩, ⟨1280, 720, 2800000, "720p"⟩]).1 = 2 ∧
    occ "[0:v]".data (build_filter_complex_for_targets
      [⟨1920, 1080, 5000000, "1080p"⟩, ⟨1280, 720, 2800000, "720p"⟩]).1 = 1 :=
  ⟨(C2_filter_graph [⟨1920, 1080, 5000000, "1080p"⟩, ⟨1280, 720, 2800000, "720p"⟩]
      (by decide)).2.2.1,
   (C2_filter_graph [⟨1920, 1080, 5000000, "1080p"⟩, ⟨1280, 720, 2800000, "720p"⟩]
      (by decide)).2.2.2.2.2.2.1,
   (C2_filter_graph [⟨1920, 1080, 5000000, "1080p"⟩, ⟨1280, 720, 2800000, "720p"⟩]
      (by decide)).2.1⟩

/- ===================== HLS master playlist lemmas ===================== -/

lemma data_streaminf_bw : "#EXT-X-STREAM-INF:BANDWIDTH=".data =
    "#EXT-X-STREAM-INF:".data ++ "BANDWIDTH=".data := rfl

lemma natChars_head_digit (n : Nat) :
    ∃ c cs, natChars n = c :: cs ∧ c.isDigit = true := by
  rcases hx : natChars n with _ | ⟨c, cs⟩
  · exact absurd hx (natChars_ne_nil n)
  · exact ⟨c, cs, rfl, natChars_digits n c (by rw [hx]; simp)⟩

lemma streamInf_marker_not_path (t : Target) :
    ("#EXT-X-STREAM-INF:".data.isPrefixOf (hlsPathLine t)) = false := by
  obtain ⟨c, cs, hc, hdig⟩ := natChars_head_digit t.h
  unfold hlsPathLine
  rw [hc]
  show (('#' :: "EXT-X-STREAM-INF:".data).isPrefixOf (c :: (cs ++ "/index.m3u8".data))) = false
  rw [Bool.eq_false_iff]
  intro hcon
  rw [List.isPrefixOf_iff_prefix, List.cons_prefix_cons] at hcon
  rw [← hcon.1] at hdig
  simp at hdig

lemma streamInf_marker_of_line (t : Target) :
    ("#EXT-X-STREAM-INF:".data.isPrefixOf (hlsStreamInfLine t)) = true := by
  rw [List.isPrefixOf_iff_prefix]
  unfold hlsStreamInfLine
  rw [data_streaminf_bw, List.append_assoc, List.append_assoc]
  exact List.prefix_append _ _

lemma hls_body_length (targets : List Target) :
    (targets.flatMap (fun t => [hlsStreamInfLine t, hlsPathLine t])).length =
      2 * targets.length := by
  induction targets with
  | nil => rfl
  | cons t ts ih =>
    rw [List.flatMap_cons, List.length_append, ih, List.length_cons]
    simp
    omega

lemma hls_body_count (targets : List Target) :
    (targets.flatMap (fun t => [hlsStreamInfLine t, hlsPathLine t])).countP
      (fun l => "#EXT-X-STREAM-INF:".data.isPrefixOf l) = targets.length := by
  induction targets with
  | nil => rfl
  | cons t ts ih =>
    rw [List.flatMap_cons, List.countP_append, ih]
    simp only [List.countP_cons, List.countP_nil]
    rw [streamInf_marker_of_line t, streamInf_marker_not_path t]
    simp
    omega

lemma hls_pairs_get (targets : List Target) :
    ∀ i (hi : i < targets.length),
      (targets.flatMap (fun t => [hlsStreamInfLine t, hlsPathLine t]))[2 * i]? =
        some (hlsStreamInfLine (targets.get ⟨i, hi⟩)) ∧
      (targets.flatMap (fun t => [hlsStreamInfLine t, hlsPathLine t]))[2 * i + 1]? =
        some (hlsPathLine (targets.get ⟨i, hi⟩)) := by
  induction targets with
  | nil => intro i hi; simp at hi
  | cons t ts ih =>
    intro i hi
    rcases i with _ | j
    · simp only [List.flatMap_cons, List.cons_append, List.nil_append]
      constructor
      · rw [Nat.mul_zero, List.getElem?_cons_zero]
        rfl
      · rw [Nat.mul_zero, List.getElem?_cons_succ, List.getElem?_cons_zero]
        rfl
    · have hj : j < ts.length := by simpa using hi
      have hrec := ih j hj
      simp only [List.flatMap_cons, List.cons_append, List.nil_append]
      constructor
      · rw [show (2 * (j + 1)) = (2 * j) + 1 + 1 by omega]
        rw [List.getElem?_cons_succ, List.getElem?_cons_succ]
        exact hrec.1
      · rw [show (2 * (j + 1) + 1) = (2 * j + 1) + 1 + 1 by omega]
        rw [List.getElem?_cons_succ, List.getElem?_cons_succ]
        exact hrec.2

/-- Claim C4: the master playlist written by `write_hls_master` has exactly
one variant-stream header per rendition, in ladder order: its line list is
the two fixed header lines followed, for the i-th rendition, by one
`#EXT-X-STREAM-INF` line whose BANDWIDTH is the rendition bitrate plus
128000 and whose RESOLUTION is width x height, then the path to that
rendition's playlist. -/
theorem C4_hls_master (targets : List Target) :
    (write_hls_master_lines targets).length = 2 + 2 * targets.length ∧
    (write_hls_master_lines targets).countP
      (fun l => "#EXT-X-STREAM-INF:".data.isPrefixOf l) = targets.length ∧
    ∀ i (hi : i < targets.length),
      (write_hls_master_lines targets)[2 + 2 * i]? =
        some ("#EXT-X-STREAM-INF:BANDWIDTH=".data ++ natChars ((targets.get ⟨i, hi⟩).br + 128000) ++
          ",RESOLUTION=".data ++ natChars (targets.get ⟨i, hi⟩).w ++ "x".data ++
          natChars (targets.get ⟨i, hi⟩).h) ∧
      (write_hls_master_lines targets)[2 + 2 * i + 1]? =
        some (natChars (targets.get ⟨i, hi⟩).h ++ "/index.m3u8".data) := by
  refine ⟨?_, ?_, ?_⟩
  · unfold write_hls_master_lines
    rw [List.length_append, hls_body_length]
    rfl
  · unfold write_hls_master_lines
    rw [List.countP_append, hls_body_count,
      show (["#EXTM3U".data, "#EXT-X-VERSION:3".data].countP
        (fun l => "#EXT-X-STREAM-INF:".data.isPrefixOf l)) = 0 from by decide]
    omega
  · intro i hi
    have hpair := hls_pairs_get targets i hi
    unfold write_hls_master_lines
    constructor
    · rw [show 2 + 2 * i = (2 * i) + 1 + 1 by omega, List.cons_append, List.cons_append,
        List.nil_append, List.getElem?_cons_succ, List.getElem?_cons_succ]
      exact hpair.1
    · rw [show 2 + 2 * i + 1 = (2 * i + 1) + 1 + 1 by omega, List.cons_append, List.cons_append,
        List.nil_append, List.getElem?_cons_succ, List.getElem?_cons_succ]
      exact hpair.2

/-- Witness for claim C4 at a concrete two-rendition ladder. -/
theorem C4_hls_master_witness :
    (write_hls_master_lines [⟨1920, 1080, 5000000, "1080p"⟩, ⟨1280, 720, 2800000, "720p"⟩]).countP
      (fun l => "#EXT-X-STREAM-INF:".data.isPrefixOf l) = 2 ∧
    (write_hls_master_lines [⟨1920, 1080, 5000000, "1080p"⟩, ⟨1280, 720, 2800000, "720p"⟩])[2]? =
      some "#EXT-X-STREAM-INF:BANDWIDTH=5128000,RESOLUTION=1920x1080".data := by
  constructor
  · exact (C4_hls_master [⟨1920, 1080, 5000000, "1080p"⟩, ⟨1280, 720, 2800000, "720p"⟩]).2.1
  · have h := ((C4_hls_master [⟨1920, 1080, 5000000, "1080p"⟩, ⟨1280, 720, 2800000, "720p"⟩]).2.2 0
      (by decide)).1
    exact h

/- ===================== progress translator ===================== -/

/-- The per-marker percentage computed by `run` in
`src/utils/ffmpegtools.py`: Python tests `total_ms and total_ms > 0`
(falsy `None` or `0` fall through to 0), then clamps
`out_ms / total_ms * 100` to [0, 100]; modelled exactly over `ℚ`. -/
def progress_pct (total_ms : Option ℤ) (out_ms : ℤ) : ℚ :=
  match total_ms with
  | none => 0
  | some total =>
    if total ≠ 0 ∧ 0 < total then max 0 (min 100 ((out_ms : ℚ) / (total : ℚ) * 100)) else 0

/-- Claim C5: with a known positive total duration the reported percent is
the clamp of elapsed over total times 100, always inside [0, 100], and equal
to 100 whenever the elapsed marker overshoots the total; with an unknown or
zero (or negative) total it is 0 for every marker. -/
theorem C5_progress_clamp (total out : ℤ) :
    progress_pct none out = 0 ∧
    (total ≤ 0 → progress_pct (some total) out = 0) ∧
    (0 < total →
      progress_pct (some total) out = max 0 (min 100 ((out : ℚ) / (total : ℚ) * 100)) ∧
      0 ≤ progress_pct (some total) out ∧
      progress_pct (some total) out ≤ 100 ∧
      (total ≤ out → progress_pct (some total) out = 100)) := by
  refine ⟨rfl, ?_, ?_⟩
  · intro h
    simp only [progress_pct]
    rw [if_neg (by omega)]
  · intro h
    have hcond : total ≠ 0 ∧ 0 < total := ⟨by omega, h⟩
    refine ⟨?_, ?_, ?_, ?_⟩
    · simp only [progress_pct]
      rw [if_pos hcond]
    · simp only [progress_pct]
      rw [if_pos hcond]
      exact le_max_left 0 _
    · simp only [progress_pct]
      rw [if_pos hcond]
      exact max_le (by norm_num) (min_le_left _ _)
    · intro hle
      simp only [progress_pct]
      rw [if_pos hcond]
      have htq : (0 : ℚ) < (total : ℚ) := by exact_mod_cast h
      have h1 : (1 : ℚ) ≤ (out : ℚ) / (total : ℚ) := by
        rw [le_div_iff₀ htq, one_mul]
        exact_mod_cast hle
      have h100 : (100 : ℚ) ≤ (out : ℚ) / (total : ℚ) * 100 := by
        calc (100 : ℚ) = 1 * 100 := by norm_num
          _ ≤ (out : ℚ) / (total : ℚ) * 100 := by
            exact mul_le_mul_of_nonneg_right h1 (by norm_num)
      rw [min_eq_left h100, max_eq_right (by norm_num)]

/-- Witness for claim C5: overshoot clamps to 100, zero and unknown
durations report 0. -/
theorem C5_progress_clamp_witness :
    progress_pct (some 2) 5 = 100 ∧ progress_pct (some 0) 7 = 0 ∧ progress_pct none 3 = 0 :=
  ⟨((C5_progress_clamp 2 5).2.2 (by decide)).2.2.2 (by decide),
   (C5_progress_clamp 0 7).2.1 (by decide),
   (C5_progress_clamp 0 3).1⟩

/- ===================== geometry prober ===================== -/

/-- Python `str.strip`: drop whitespace from both ends. -/
def stripChars (s : List Char) : List Char :=
  ((s.dropWhile Char.isWhitespace).reverse.dropWhile Char.isWhitespace).reverse

/-- Python `str.split` on a one-character separator. -/
def splitOnChar (sep : Char) : List Char → List (List Char)
  | [] => [[]]
  | c :: cs =>
    match splitOnChar sep cs with
    | [] => [[]]
    | g :: gs => if c = sep then [] :: g :: gs else (c :: g) :: gs

/-- Digit run to value, `none` when empty or not all digits. -/
def digitsToNat (ds : List Char) : Option Nat :=
  if ds = [] then none
  else if ds.all Char.isDigit then
    some (ds.foldl (fun acc c => acc * 10 + (c.toNat - 48)) 0)
  else none

/-- Python `int()` on a string: optional surrounding whitespace, optional
sign, a nonempty digit run; anything else raises, modelled as `none`. -/
def pyInt (s : List Char) : Option Int :=
  match stripChars s with
  | '-' :: ds => (digitsToNat ds).map (fun n => -(n : Int))
  | '+' :: ds => (digitsToNat ds).map (fun n => (n : Int))
  | ds => (digitsToNat ds).map (fun n => (n : Int))

/-- The parsing stage of `probe_src_wh` in `src/encode.py`: strip the probe
output, split on the `x` separator into exactly two parts, convert both
with `int`. `none` is any of the failures that the enclosing `try` absorbs. -/
def parse_wh (out : List Char) : Option (Int × Int) :=
  match splitOnChar 'x' (stripChars out) with
  | [w, h] =>
    match pyInt w, pyInt h with
    | some wi, some hi => some (wi, hi)
    | _, _ => none
  | _ => none

/-- Embedding of `probe_src_wh` from `src/encode.py` with its effectful boundary made
explicit: the input is the text produced by the probe subprocess, or `none`
when the subprocess itself failed; every failure path returns the 1920x1080
fallback. -/
def probe_src_wh (probeOut : Option (List Char)) : Int × Int :=
  match probeOut with
  | none => (1920, 1080)
  | some out =>
    match splitOnChar 'x' (stripChars out) with
    | [w, h] =>
      match pyInt w, pyInt h with
      | some wi, some hi => (wi, hi)
      | _, _ => (1920, 1080)
    | _ => (1920, 1080)

/-- One run of the continued-fraction loop of Python
`Fraction.limit_denominator`. -/
def cfLoop (maxd : Int) : Nat → Int → Int → Int → Int → Int → Int → Int × Int × Int × Int
  | 0, p0, q0, p1, q1, _, _ => (p0, q0, p1, q1)
  | fuel + 1, p0, q0, p1, q1, n, d =>
    if d = 0 then (p0, q0, p1, q1)
    else
      let a := Int.fdiv n d
      let q2 := q0 + a * q1
      if maxd < q2 then (p0, q0, p1, q1)
      else cfLoop maxd fuel p1 q1 (p0 + a * p1) q2 d (n - a * d)

/-- Python `Fraction.limit_denominator`: the best rational approximation
with denominator bounded by `maxd`, computed by the continued-fraction
algorithm of the standard library (the fuel `x.den` dominates the number of
iterations, and the `d = 0` guard is unreachable because the loop always
breaks on the denominator bound first). -/
def limit_denominator (x : ℚ) (maxd : Nat) : ℚ :=
  if x.den ≤ maxd then x
  else
    let r := cfLoop (maxd : Int) x.den 0 1 1 0 x.num (x.den : Int)
    let k := Int.fdiv ((maxd : Int) - r.2.1) r.2.2.2
    let b1 := ((r.1 + k * r.2.2.1 : Int) : ℚ) / ((r.2.1 + k * r.2.2.2 : Int) : ℚ)
    let b2 := ((r.2.2.1 : Int) : ℚ) / ((r.2.2.2 : Int) : ℚ)
    if |b2 - x| ≤ |b1 - x| then b2 else b1

/-- Python decimal rendering of an int (sign and digits). -/
def intChars (i : Int) : List Char :=
  if i < 0 then '-' :: natChars (-i).toNat else natChars i.toNat

/-- The fields that `probe_dar` reads from the first video stream of the
decoded probe JSON. -/
structure DarProbe where
  display_aspect_ratio : Option (List Char)
  width : Option Int
  height : Option Int
  sample_aspect_ratio : Option (List Char)

/-- Embedding of `probe_dar` from `src/encode.py` with its effectful boundary made
explicit: the input is the decoded JSON record of the first video stream
(`none` when the subprocess, the JSON decoding or the stream lookup raised,
all absorbed by the enclosing `try`). A declared display aspect ratio that
is non-degenerate is returned verbatim; otherwise the ratio is recomputed
from width, height and sample aspect ratio (each `or`-defaulted on falsy
values exactly as in Python) and reduced to a denominator of at most 1000. -/
def probe_dar (input : Option DarProbe) : List Char :=
  match input with
  | none => "16:9".data
  | some info =>
    let dar := stripChars (info.display_aspect_ratio.getD [])
    if dar ≠ [] ∧ dar ≠ "0:1".data ∧ dar ≠ "N/A".data ∧ dar ≠ "unknown".data then dar
    else
      let w := match info.width with
        | some x => if x = 0 then 1920 else x
        | none => 1920
      let h := match info.height with
        | some x => if x = 0 then 1080 else x
        | none => 1080
      let sarS := stripChars (match info.sample_aspect_ratio with
        | some s => if s = [] then "1:1".data else s
        | none => "1:1".data)
      let sar := match splitOnChar ':' sarS with
        | [a, b] =>
          match pyInt a, pyInt b with
          | some sn, some sd => if sn ≤ 0 ∨ sd ≤ 0 then (1, 1) else (sn, sd)
          | _, _ => ((1 : Int), (1 : Int))
        | _ => (1, 1)
      let frac := limit_denominator (((w : ℚ) / (h : ℚ)) * ((sar.1 : ℚ) / (sar.2 : ℚ))) 1000
      intChars frac.num ++ ":".data ++ intChars (frac.den : Int)

/-- Claim C6: the geometry probers absorb every failure. `probe_src_wh` is
the fallback-or-parse of its probe text (so any subprocess failure or
malformed output yields 1920x1080) and `probe_dar` returns 16:9 whenever its
probe pipeline raised. -/
theorem C6_probe_fallback :
    (∀ s : Option (List Char), probe_src_wh s = ((s.bind parse_wh).getD (1920, 1080))) ∧
    probe_src_wh none = (1920, 1080) ∧
    probe_src_wh (some "not-a-size".data) = (1920, 1080) ∧
    probe_src_wh (some "1280x720x3".data) = (1920, 1080) ∧
    probe_dar none = "16:9".data := by
  refine ⟨?_, rfl, by decide, by decide, rfl⟩
  intro s
  rcases s with _ | out
  · rfl
  · show (match splitOnChar 'x' (stripChars out) with
      | [w, h] =>
        match pyInt w, pyInt h with
        | some wi, some hi => (wi, hi)
        | _, _ => ((1920 : Int), (1080 : Int))
      | _ => ((1920 : Int), (1080 : Int))) =
      ((match splitOnChar 'x' (stripChars out) with
        | [w, h] =>
          match pyInt w, pyInt h with
          | some wi, some hi => some (wi, hi)
          | _, _ => none
        | _ => none).getD ((1920 : Int), (1080 : Int)))
    rcases splitOnChar 'x' (stripChars out) with _ | ⟨w, rest⟩
    · rfl
    · rcases rest with _ | ⟨h, rest2⟩
      · rfl
      · rcases rest2 with _ | ⟨r3, rest3⟩
        · show (match pyInt w, pyInt h with
            | some wi, some hi => (wi, hi)
            | _, _ => ((1920 : Int), (1080 : Int))) =
            ((match pyInt w, pyInt h with
              | some wi, some hi => some (wi, hi)
              | _, _ => none).getD ((1920 : Int), (1080 : Int)))
          rcases pyInt w with _ | wi <;> rcases pyInt h with _ | hi <;> rfl
        · rfl

/- ===================== main job skeleton ===================== -/

/-- The inputs and effect outcomes that `main` of `src/encode.py` consumes,
with each external boundary explicit: probe results arrive as values, the
two encoder invocations and the manifest rewrite report success or failure,
and the final duration probe may fail (`none`). -/
structure EncodeEnv where
  inputExists : Bool
  base : String
  renditions : List String
  arMode : String
  probedW : Nat
  probedH : Nat
  doHls : Bool
  doDash : Bool
  encryptHls : Bool
  hlsEncodeOk : Bool
  dashEncodeOk : Bool
  mpdRewriteOk : Bool
  durationProbe : Option ℚ

/-- The externally observable outcome of one `main` run: process exit code,
directories created under the output root in creation order, the recorded
`sources` keys, whether the DASH representation directories were renamed to
height names, whether the rewrite warning was logged, whether the sidecars
were written (with the duration recorded in `player.json`), and whether the
terminal `JOB_DONE` line was printed. -/
structure MainOutcome where
  exitCode : Nat
  createdDirs : List String
  sourcesHls : Bool
  sourcesDash : Bool
  dashRenamed : Bool
  rewriteWarn : Bool
  jobJsonWritten : Bool
  playerDurationMs : Option ℤ
  jobDone : Bool
  deriving DecidableEq, Repr

/-- Shallow embedding of the control-flow skeleton of `main` in
`src/encode.py`: missing input exits 2 before any directory is created; the
job directory is created next; an empty ladder exits 3; each requested
packager pre-creates its directories and then invokes the encoder once, a
nonzero exit propagating to the top-level handler (exit 1); a failing DASH
manifest rewrite only logs a warning and leaves the numeric directories in
place; a failing duration probe degrades to zero; finally both sidecars are
written and `JOB_DONE` is printed. Poster and subtitle extraction create no
directories and absorb their own failures, so they do not appear in the
outcome. -/
def main_model (e : EncodeEnv) : MainOutcome :=
  if e.inputExists = false then
    { exitCode := 2, createdDirs := [], sourcesHls := false, sourcesDash := false,
      dashRenamed := false, rewriteWarn := false, jobJsonWritten := false,
      playerDurationMs := none, jobDone := false }
  else
    let dirs0 := [e.base]
    let targets := build_targets e.renditions e.arMode e.probedW e.probedH
    if targets.isEmpty then
      { exitCode := 3, createdDirs := dirs0, sourcesHls := false, sourcesDash := false,
        dashRenamed := false, rewriteWarn := false, jobJsonWritten := false,
        playerDurationMs := none, jobDone := false }
    else
      let dirs1 := dirs0 ++
        (if e.doHls then
          (e.base ++ "/HLS") :: targets.map (fun t => e.base ++ "/HLS/" ++ toString t.h)
        else [])
      if e.doHls && !e.hlsEncodeOk then
        { exitCode := 1, createdDirs := dirs1, sourcesHls := false, sourcesDash := false,
          dashRenamed := false, rewriteWarn := false, jobJsonWritten := false,
          playerDurationMs := none, jobDone := false }
      else
        let dirs2 := dirs1 ++
          (if e.doDash then
            (e.base ++ "/DASH") ::
              (List.range (targets.length * 2)).map (fun i => e.base ++ "/DASH/" ++ toString i)
          else [])
        if e.doDash && !e.dashEncodeOk then
          { exitCode := 1, createdDirs := dirs2, sourcesHls := e.doHls, sourcesDash := false,
            dashRenamed := false, rewriteWarn := false, jobJsonWritten := false,
            playerDurationMs := none, jobDone := false }
        else
          { exitCode := 0, createdDirs := dirs2,
            sourcesHls := e.doHls, sourcesDash := e.doDash,
            dashRenamed := e.doDash && e.mpdRewriteOk,
            rewriteWarn := e.doDash && !e.mpdRewriteOk,
            jobJsonWritten := true,
            playerDurationMs := some (match e.durationProbe with
              | some sec => rhe (sec * 1000)
              | none => 0),
            jobDone := true }

/-- Claim C7 is false as stated: with only the invalid key 9999 the process
does exit with code 3, but the job working directory below the output root
has already been created before the ladder check. -/
theorem C7_counterexample :
    (main_model ⟨true, "video", ["9999"], "source", 1920, 1080,
        true, true, false, true, true, true, none⟩).exitCode = 3 ∧
    (main_model ⟨true, "video", ["9999"], "source", 1920, 1080,
        true, true, false, true, true, true, none⟩).createdDirs = ["video"] ∧
    (main_model ⟨true, "video", ["9999"], "source", 1920, 1080,
        true, true, false, true, true, true, none⟩).createdDirs ≠ [] := by
  refine ⟨by decide, by decide, by decide⟩

/-- Claim C7 (amended): when the filtered ladder is empty the process exits
with code 3; by then exactly the job working directory has been created, and
no packager directory, no sidecar, no sources entry and no `JOB_DONE` line
is produced. -/
theorem C7_empty_ladder (e : EncodeEnv) (hin : e.inputExists = true)
    (hempty : build_targets e.renditions e.arMode e.probedW e.probedH = []) :
    main_model e = { exitCode := 3, createdDirs := [e.base], sourcesHls := false,
                     sourcesDash := false, dashRenamed := false, rewriteWarn := false,
                     jobJsonWritten := false, playerDurationMs := none, jobDone := false } := by
  unfold main_model
  rw [hin, hempty]
  simp

/-- Witness for the amended claim C7. -/
theorem C7_empty_ladder_witness :
    (main_model ⟨true, "clip", ["9999"], "fixed", 1920, 1080,
        true, true, false, true, true, true, none⟩).exitCode = 3 ∧
    (main_model ⟨true, "clip", ["9999"], "fixed", 1920, 1080,
        true, true, false, true, true, true, none⟩).createdDirs = ["clip"] := by
  have h := C7_empty_ladder ⟨true, "clip", ["9999"], "fixed", 1920, 1080,
    true, true, false, true, true, true, none⟩ (by decide) (by decide)
  rw [h]
  exact ⟨rfl, rfl⟩

/-- Claim C8: a failing DASH manifest rewrite is non-fatal. Whenever the run
reaches the DASH stage and its encoder invocation succeeds but the rewrite
fails, the warning is logged, the directories stay in numeric form,
`sources` still records the DASH manifest, both sidecars are written and the
job terminates successfully with `JOB_DONE`. -/
theorem C8_rewrite_nonfatal (e : EncodeEnv) (hin : e.inputExists = true)
    (hne : build_targets e.renditions e.arMode e.probedW e.probedH ≠ [])
    (hhls : e.doHls = true → e.hlsEncodeOk = true)
    (hdash : e.doDash = true) (hok : e.dashEncodeOk = true) (hrw : e.mpdRewriteOk = false) :
    (main_model e).rewriteWarn = true ∧ (main_model e).dashRenamed = false ∧
    (main_model e).sourcesDash = true ∧ (main_model e).jobJsonWritten = true ∧
    (main_model e).playerDurationMs.isSome = true ∧ (main_model e).jobDone = true ∧
    (main_model e).exitCode = 0 := by
  have h1 : (build_targets e.renditions e.arMode e.probedW e.probedH).isEmpty = false := by
    rcases hl : build_targets e.renditions e.arMode e.probedW e.probedH with _ | ⟨t, ts⟩
    · exact absurd hl hne
    · rfl
  have h2 : (e.doHls && !e.hlsEncodeOk) = false := by
    rcases hdh : e.doHls
    · simp
    · simp [hhls hdh]
  have h3 : (e.doDash && !e.dashEncodeOk) = false := by simp [hok]
  unfold main_model
  rw [hin]
  simp [h1, h2, h3, hdash, hok, hrw]

/-- Witness for claim C8. -/
theorem C8_rewrite_nonfatal_witness :
    (main_model ⟨true, "clip", ["720"], "fixed", 1920, 1080,
        true, true, false, true, true, false, none⟩).rewriteWarn = true ∧
    (main_model ⟨true, "clip", ["720"], "fixed", 1920, 1080,
        true, true, false, true, true, false, none⟩).sourcesDash = true ∧
    (main_model ⟨true, "clip", ["720"], "fixed", 1920, 1080,
        true, true, false, true, true, false, none⟩).exitCode = 0 := by
  have h := C8_rewrite_nonfatal ⟨true, "clip", ["720"], "fixed", 1920, 1080,
    true, true, false, true, true, false, none⟩ (by decide) (by decide)
    (fun _ => rfl) rfl rfl rfl
  exact ⟨h.1, h.2.2.1, h.2.2.2.2.2.2⟩

/-- Claim C10: a failing duration probe after packaging is non-fatal:
`player.json` is still written with a zero duration and the terminal
`JOB_DONE` line is still printed, the process exiting successfully. -/
theorem C10_duration_fallback (e : EncodeEnv) (hin : e.inputExists = true)
    (hne : build_targets e.renditions e.arMode e.probedW e.probedH ≠ [])
    (hhls : e.doHls = true → e.hlsEncodeOk = true)
    (hdash : e.doDash = true → e.dashEncodeOk = true)
    (hdur : e.durationProbe = none) :
    (main_model e).playerDurationMs = some 0 ∧ (main_model e).jobDone = true ∧
    (main_model e).jobJsonWritten = true ∧ (main_model e).exitCode = 0 := by
  have h1 : (build_targets e.renditions e.arMode e.probedW e.probedH).isEmpty = false := by
    rcases hl : build_targets e.renditions e.arMode e.probedW e.probedH with _ | ⟨t, ts⟩
    · exact absurd hl hne
    · rfl
  have h2 : (e.doHls && !e.hlsEncodeOk) = false := by
    rcases hdh : e.doHls
    · simp
    · simp [hhls hdh]
  have h3 : (e.doDash && !e.dashEncodeOk) = false := by
    rcases hdd : e.doDash
    · simp
    · simp [hdash hdd]
  unfold main_model
  rw [hin]
  simp [h1, h2, h3, hdur]

/-- Witness for claim C10. -/
theorem C10_duration_fallback_witness :
    (main_model ⟨true, "clip", ["720"], "fixed", 1920, 1080,
        true, true, false, true, true, true, none⟩).playerDurationMs = some 0 ∧
    (main_model ⟨true, "clip", ["720"], "fixed", 1920, 1080,
        true, true, false, true, true, true, none⟩).jobDone = true := by
  have h := C10_duration_fallback ⟨true, "clip", ["720"], "fixed", 1920, 1080,
    true, true, false, true, true, true, none⟩ (by decide) (by decide)
    (fun _ => rfl) (fun _ => rfl) rfl
  exact ⟨h.1, h.2.1⟩
